import Mathlib

/-!
Verification development for the CORALL marine-vessel simulation.

The Python source is shallowly embedded:
* pure numeric functions over `ℝ` (floating point is modelled by exact reals);
* the orchestrator loop (`run_simulation` in `src/core/simulation.py`) as an
  explicit state machine, parametrised by an `Env` structure bundling the
  collaborator functions whose source files are not part of the repository
  snapshot (`planning`, `vessel_dynamics`, `integration`, `obstacle_sim`,
  `cpa_calculations`, `cpa_calculations_0speed`, `controller`,
  `actuator_modeling`, `risk_calculations`) together with the external
  decision hook;
* fallible setup (the `CPA_ob = [LOA_ob[0] * 1] * len(Xob)` line, which raises
  `IndexError` on an empty obstacle list) as `Option`.
-/

namespace Corall

/-! ### String utilities and `extract_kdir_from_response`
(`src/core/simulation.py`, lines 30-45).  Python substring containment
(`sub in s`) is embedded as an executable scan over the character list. -/

/-- `listStarts sub s` holds when `sub` is an initial segment of `s`. -/
def listStarts : List Char → List Char → Bool
  | [], _ => true
  | _ :: _, [] => false
  | a :: as, c :: cs => a == c && listStarts as cs

/-- `hasSub sub s` embeds Python `sub in s` (contiguous substring search). -/
def hasSub (sub : List Char) : List Char → Bool
  | [] => listStarts sub []
  | c :: cs => listStarts sub (c :: cs) || hasSub sub cs

/-- Substring containment on `String`. -/
def strHas (sub s : String) : Bool := hasSub sub.toList s.toList

/-- Python `str.lower()`. -/
def lowerStr (s : String) : String := ⟨s.toList.map Char.toLower⟩

/-- Embedding of `extract_kdir_from_response` (`src/core/simulation.py` 30-45):
`+1` for a starboard directive, `-1` for a port directive, `0` otherwise. -/
def extract_kdir_from_response (response : String) : Int :=
  let response_lower := lowerStr response
  if strHas (lowerStr ("turn starboard")) response_lower
      || strHas (lowerStr ("alter course to starboard")) response_lower
      || strHas (lowerStr ("starboard")) response_lower then 1
  else if strHas (lowerStr ("turn port")) response_lower
      || strHas (lowerStr ("alter course to port")) response_lower
      || strHas (lowerStr ("port")) response_lower then -1
  else 0

/-! ### Scenario catalogue (`src/utils/imazu_cases.py`)
Positions are stored in meters and headings in degrees, all exact rationals;
`get_obstacle_data` converts to real positions and radian headings. -/

/-- `nautical_to_meters` (`src/utils/imazu_cases.py`, line 3). -/
def nautical_to_meters (nm_value : ℚ) : ℚ := nm_value * 1852

/-- The `obstacle_cases` dictionary (`src/utils/imazu_cases.py`), keyed by the
integer in `f"Case {case_number}"`; the `.get(case_key, [])` default for an
unknown key is the final `else []`.  Each entry is `((x, y), heading_deg)`. -/
def get_obstacles (case_number : ℤ) : List ((ℚ × ℚ) × ℚ) :=
  if case_number = 1 then [((nautical_to_meters 6, nautical_to_meters 0), 180)]
  else if case_number = 2 then [((nautical_to_meters 5, nautical_to_meters (-2.14)), 90)]
  else if case_number = 3 then [((nautical_to_meters 3, nautical_to_meters 0), 0)]
  else if case_number = 4 then [((nautical_to_meters 3.44, nautical_to_meters (1.55 + 0.08)), 295)]
  else if case_number = 5 then
    [((nautical_to_meters 5, nautical_to_meters (-2.0 - 0.14)), 90),
     ((nautical_to_meters (7 - 0.05), nautical_to_meters 0), 180)]
  else if case_number = 6 then
    [((nautical_to_meters 3.4, nautical_to_meters (-1.5 + 0.03)), 45),
     ((nautical_to_meters 3, nautical_to_meters (-0.35 - 0.04)), 10)]
  else if case_number = 7 then
    [((nautical_to_meters 3, nautical_to_meters 0), 0),
     ((nautical_to_meters 3.4, nautical_to_meters (-1.5 + 0.01)), 45)]
  else if case_number = 8 then
    [((nautical_to_meters 5, nautical_to_meters (-2.13)), 90),
     ((nautical_to_meters 7, nautical_to_meters 0), 180)]
  else if case_number = 9 then
    [((nautical_to_meters 3.4, nautical_to_meters (-1.5 + 0.03)), 45),
     ((nautical_to_meters 5, nautical_to_meters (-2.1 - 0.05)), 90)]
  else if case_number = 10 then
    [((nautical_to_meters 3, nautical_to_meters 0.35), 350),
     ((nautical_to_meters 4.4, nautical_to_meters (-2.1 + 0.20)), 90)]
  else if case_number = 11 then
    [((nautical_to_meters 5, nautical_to_meters 2.1), -90),
     ((nautical_to_meters 3.4, nautical_to_meters (-1.5)), 45)]
  else if case_number = 12 then
    [((nautical_to_meters 7, nautical_to_meters 0), 180),
     ((nautical_to_meters 3, nautical_to_meters (0.3 + 0.05)), -10),
     ((nautical_to_meters 3.44, nautical_to_meters (-1.55 + 0.05)), 45)]
  else if case_number = 13 then
    [((nautical_to_meters 6, nautical_to_meters 0), 180),
     ((nautical_to_meters 3, nautical_to_meters (0.3 + 0.05)), 350),
     ((nautical_to_meters 3.4, nautical_to_meters (1.5 + 0.05)), 295)]
  else if case_number = 14 then
    [((nautical_to_meters 3.4, nautical_to_meters (-1.5)), 45),
     ((nautical_to_meters 3, nautical_to_meters (-0.4)), 10),
     ((nautical_to_meters 5, nautical_to_meters (-2.1 - 0.05)), 90)]
  else if case_number = 15 then
    [((nautical_to_meters 3, nautical_to_meters 0), 0),
     ((nautical_to_meters 3.4, nautical_to_meters (-1.5)), 45),
     ((nautical_to_meters 5, nautical_to_meters (-2.1 - 0.05)), 90)]
  else if case_number = 16 then
    [((nautical_to_meters 3.4, nautical_to_meters (1.5 - 0.03)), -45),
     ((nautical_to_meters 5, nautical_to_meters (2.1 + 0.04)), -90),
     ((nautical_to_meters 5, nautical_to_meters (-2.1 + -0.05)), 90)]
  else if case_number = 17 then
    [((nautical_to_meters 3, nautical_to_meters 0), 0),
     ((nautical_to_meters 3, nautical_to_meters (0.3 + 0.05)), -10),
     ((nautical_to_meters 3.4, nautical_to_meters (-1.5)), 45)]
  else if case_number = 18 then
    [((nautical_to_meters 3.3, nautical_to_meters (-0.3 - 0.1)), 10),
     ((nautical_to_meters 3.4, nautical_to_meters (-1.5 + 0.05)), 45),
     ((nautical_to_meters 6.5, nautical_to_meters (-1.5)), 135)]
  else if case_number = 19 then
    [((nautical_to_meters 3, nautical_to_meters (-0.3 - 0.07)), 10),
     ((nautical_to_meters 3, nautical_to_meters (0.3 + 0.05)), -10),
     ((nautical_to_meters 6.5, nautical_to_meters (-1.5 - 0.03)), 135)]
  else if case_number = 20 then
    [((nautical_to_meters 3, nautical_to_meters 0), 0),
     ((nautical_to_meters 3, nautical_to_meters (-0.3 - 0.05)), 10),
     ((nautical_to_meters 4.4, nautical_to_meters (-2.1 + 0.25)), 90)]
  else if case_number = 21 then
    [((nautical_to_meters (3 - 0.3), nautical_to_meters (-0.3 - 0.05)), 10),
     ((nautical_to_meters (3 - 0.3), nautical_to_meters (0.3 + 0.02)), -10),
     ((nautical_to_meters 4.4, nautical_to_meters (-1.9)), 90)]
  else if case_number = 22 then
    [((nautical_to_meters 3, nautical_to_meters 0), 0),
     ((nautical_to_meters 3.94, nautical_to_meters (-1.6 - 0.13)), 45),
     ((nautical_to_meters 5, nautical_to_meters (-2.01 - 0.15)), 90)]
  else if case_number = 23 then
    [((nautical_to_meters 4.243, nautical_to_meters 2.243), -75)]
  else []

/-- `get_obstacle_data` (`src/utils/imazu_cases.py` 39-69): X positions,
Y positions, the constant obstacle speed list `[18.52] * len(obstacles)`,
and headings converted to radians. -/
noncomputable def get_obstacle_data (case_number : ℤ) :
    List ℝ × List ℝ × List ℝ × List ℝ :=
  let obstacles := get_obstacles case_number
  (obstacles.map (fun o => ((o.1.1 : ℝ))),
   obstacles.map (fun o => ((o.1.2 : ℝ))),
   List.replicate obstacles.length (18.52 : ℝ),
   obstacles.map (fun o => (o.2 : ℝ) * Real.pi / 180))

/-! ### `atan2` and the reactive avoidance field
(`src/navigation/reactive_avoidance.py`). -/

/-- Two-argument arctangent with the C/numpy convention (`atan2 0 0 = 0`). -/
noncomputable def atan2 (y x : ℝ) : ℝ :=
  if 0 < x then Real.arctan (y / x)
  else if x < 0 then
    (if 0 ≤ y then Real.arctan (y / x) + Real.pi else Real.arctan (y / x) - Real.pi)
  else if 0 < y then Real.pi / 2
  else if y < 0 then -(Real.pi / 2)
  else 0

/-- Z-shaped membership function `zmf` (`src/navigation/reactive_avoidance.py`
5-15).  The numpy masked assignments (`x ≤ a`, `a < x < (a+b)/2`,
`(a+b)/2 ≤ x < b`, with `0` elsewhere) are disjoint for `a < b`, so they embed
as an if-chain. -/
noncomputable def zmf (x a b : ℝ) : ℝ :=
  if x ≤ a then 1
  else if x < (a + b) / 2 then 1 - 2 * ((x - a) / (b - a)) ^ 2
  else if x < b then 2 * ((x - b) / (b - a)) ^ 2
  else 0

/-- Two-sided derivative candidate of `fun x => zmf x a b`, used to express
that `zmf` is continuously differentiable at the blend midpoint. -/
noncomputable def zmfDeriv (x a b : ℝ) : ℝ :=
  if x < (a + b) / 2 then -4 * (x - a) / (b - a) ^ 2 else 4 * (x - b) / (b - a) ^ 2

/-- Result tuple of `reactive_avoidance`:
`(psi_oa, w_b, w_r, distance_ob, bearing_ob)`. -/
structure RAResult where
  psi_oa : ℝ
  w_b : List ℝ
  w_r : List ℝ
  distance_ob : List ℝ
  bearing_ob : List ℝ

/-- Embedding of `reactive_avoidance` (`src/navigation/reactive_avoidance.py`
18-54).  Elementwise numpy operations over the obstacle arrays become maps
over the list of obstacle positions `x_ob.zip y_ob`; `t` is unused, as in the
source. -/
noncomputable def reactive_avoidance (x_ob y_ob : List ℝ) (x y psi t : ℝ) : RAResult :=
  let a : ℝ := 600.0 / 1852
  let b : ℝ := 1200 / 1852
  let sig : ℝ := 80 * Real.pi / 180
  let pts := x_ob.zip y_ob
  let distance_ob := pts.map (fun p => Real.sqrt ((p.1 - x) ^ 2 + (p.2 - y) ^ 2))
  let los_ob := pts.map (fun p => atan2 (p.2 - y) (p.1 - x))
  let bearing_ob := los_ob.map (fun l => psi - l)
  let w_r := distance_ob.map (fun d => zmf d a b)
  let w_b := bearing_ob.map (fun beta => -Real.exp (-(beta ^ 2) / (2 * sig ^ 2)))
  let psi_oa := ((w_r.zip w_b).map (fun q => q.1 * q.2)).sum * 2
  ⟨psi_oa, w_b, w_r, distance_ob, bearing_ob⟩

/-- Modelled from the spec: `risk_calculations`
(`src/risk_assessment/risk_calculations.py`) is imported by the orchestrator
but its source file is not part of the repository snapshot.  Spec §4.5 fixes
only the contract — a total map `(DCPA, TCPA, distance, relative speed) →
[0, 1]`, monotone non-decreasing as DCPA decreases and as TCPA decreases
toward `0⁺`, defined at all boundary values — and leaves the exact functional
form as an implementation choice; we realise it as
`exp (-(max DCPA 0) - max TCPA 0)`. -/
noncomputable def risk_calculations_model (dcpa tcpa _dist _vrel : ℝ) : ℝ :=
  Real.exp (-(max dcpa 0) - max tcpa 0)

/-! ### Orchestrator embedding (`run_simulation`, `src/core/simulation.py`)

The six-element vessel state `X = [x, y, psi, r, b, u]`. -/

structure Vec6 where
  x : ℝ
  y : ℝ
  psi : ℝ
  r : ℝ
  b : ℝ
  u : ℝ

/-- External collaborators of the orchestrator.  Their implementations live in
files that are not part of the repository snapshot
(`src/navigation/planning.py`, `src/dynamics/*.py`, `src/core/integration.py`,
`src/navigation/obstacle_sim.py`, `src/risk_assessment/*.py`) or are external
services (the LLM decision hook reached through `run_colm`), so the loop is
verified for every environment.  Signatures mirror the call sites in
`run_simulation`. -/
structure Env where
  waypoint_selection : List ℝ → List ℝ → ℝ → ℝ → ℕ → ℕ
  planning : List ℝ → List ℝ → ℝ → ℝ → ℕ → ℝ
  vessel_dynamics : Vec6 → ℝ × ℝ → Vec6
  integration : Vec6 → Vec6 → ℝ → Vec6
  obstacle_sim : List ℝ → List ℝ → List ℝ → List ℝ → ℝ → List ℝ × List ℝ × List ℝ × List ℝ
  cpa_calculations : ℝ → ℝ → ℝ → ℝ → ℝ → ℝ → ℝ → ℝ → ℝ → ℝ × ℝ × ℝ × ℝ × ℝ
  cpa_calculations_0speed : ℝ → ℝ → ℝ → ℝ → ℝ → ℝ → ℝ → ℝ → ℝ → ℝ × ℝ × ℝ × ℝ × ℝ
  controller : ℝ → ℝ → ℝ → ℝ → (ℕ → ℝ) → ℝ → ℝ → ℝ × ℝ × ℝ
  actuator_modeling : ℝ → ℝ → ℝ
  risk_calculations : ℝ → ℝ → ℝ → ℝ → ℝ
  hook : List ℝ → List ℝ → List ℝ → List ℝ → List ℝ → String

/-- Run arguments and scenario snapshot: time step `dt`, initial obstacle
positions/speeds/headings, and the LLM flags (`args.llm == 1` and the
`LLM_AVAILABLE` import guard). -/
structure Params where
  dt : ℝ
  Xob0 : List ℝ
  Yob0 : List ℝ
  Vob : List ℝ
  psiob : List ℝ
  llmOn : Bool
  llmAvailable : Bool

/-- Values recorded at step `i`: row `i` of every per-step array of
`run_simulation`.  `Kdir` is the final value of `Kdir[i]` (after the
decision-hook assignment, which in the source happens after `psi_p[i]` has
already been computed). -/
structure StepRec where
  x : ℝ
  y : ℝ
  psi : ℝ
  r : ℝ
  b : ℝ
  u : ℝ
  u_p : ℝ
  v_c : ℝ
  tau_c : ℝ
  tau_ac : ℝ
  psi_p : ℝ
  psi_wp : ℝ
  psi_oa : ℝ
  V_x : ℝ
  V_y : ℝ
  Kdir : ℝ
  DCPA : List ℝ
  TCPA : List ℝ
  Vrel : List ℝ
  DCPA2 : List ℝ
  TCPA2 : List ℝ
  Distance_ob : List ℝ
  Bearing_ob : List ℝ
  Risk : List ℝ
  Xobs : List ℝ
  Yobs : List ℝ
  Vxobs : List ℝ
  Vyobs : List ℝ

/-- Row `i` of the geometry/risk arrays, as updated by the
"Risk analysis" block of a step. -/
structure Rows where
  dcpa : List ℝ
  tcpa : List ℝ
  vrel : List ℝ
  dist : List ℝ
  risk : List ℝ
  dcpa2 : List ℝ
  tcpa2 : List ℝ

/-- Loop-carried state between steps: the live vessel state `X`, current
obstacle positions (`Xob`, `Yob`), the controller integral `ui_psi1`, the
active waypoint index, the clock `t`, and the rows recorded so far. -/
structure LoopState where
  X : Vec6
  Xob : List ℝ
  Yob : List ℝ
  ui_psi1 : ℝ
  i_wpt : ℕ
  t : ℝ
  recs : List StepRec

/-- The `b` array as seen by the `controller(psi_p[i], psi[i], r[i], u_p[i],
b, ui_psi1, Ts)` call at step `i`: entries `b[0..i]` are filled (including the
current step, recorded just before the call) and the rest of the
pre-allocated array is still zero. -/
def bArr (recs : List StepRec) (bcur : ℝ) : ℕ → ℝ :=
  fun j => ((recs.map (fun rc => rc.b)) ++ [bcur]).getD j 0

/-- Waypoint x list `[0, nautical_to_meters(40)/1852]` (in nautical miles). -/
noncomputable def Xwpt : List ℝ := [0, ((nautical_to_meters 40 : ℚ) : ℝ) / 1852]

/-- Waypoint y list `[0, 0]`. -/
noncomputable def Ywpt : List ℝ := [0, 0]

/-- Initial loop state: `X = [0,0,radians(0),0,0,0]`, `ui_psi1 = 0`,
`i_wpt = 1`, `t = 0`, no rows recorded. -/
def initState (p : Params) : LoopState :=
  { X := ⟨0, 0, 0, 0, 0, 0⟩, Xob := p.Xob0, Yob := p.Yob0,
    ui_psi1 := 0, i_wpt := 1, t := 0, recs := [] }

/-- The "Risk analysis" block (`src/core/simulation.py` 252-269 animated,
379-397 non-animated).  `last?` is `Xobs[i-1, :]`-etc. read through the
previous step's record (`none` at `i = 0`).  At `i = 0` the finite-difference
CPA variant is skipped, leaving the initialisation `DCPA[:1] = TCPA[:1] =
1000` and `Vrel[0,:] = 0`, and `Distance_ob[0,:]`/`Bearing_ob[0,:]` keep the
values written by `reactive_avoidance`.  The single numeric difference
between the two source branches sits here: the animated branch computes
`Risk[i, j]` outside the `if i >= 1` guard, hence also at `i = 0` (from the
sentinel values), while the non-animated branch computes it only for
`i ≥ 1`, leaving `Risk[0, :]` at its zero initialisation. -/
noncomputable def mkRows (ani : Bool) (env : Env) (p : Params) (X Xdot : Vec6)
    (ob : List ℝ × List ℝ × List ℝ × List ℝ) (ra : RAResult)
    (last? : Option StepRec) : Rows :=
  let Xob2 := ob.1
  let Yob2 := ob.2.1
  let n0 := p.Xob0.length
  match last? with
  | none =>
      let riskRow :=
        if ani then ra.distance_ob.map (fun dj => env.risk_calculations 1000 1000 dj 0)
        else List.replicate n0 (0 : ℝ)
      ⟨List.replicate n0 (1000 : ℝ), List.replicate n0 (1000 : ℝ),
       List.replicate n0 (0 : ℝ), ra.distance_ob, riskRow,
       List.replicate n0 (0 : ℝ), List.replicate n0 (0 : ℝ)⟩
  | some pr =>
      let idx := List.range Xob2.length
      let dRow := idx.map (fun j =>
        Real.sqrt ((Xob2.getD j 0 - X.x) ^ 2 + (Yob2.getD j 0 - X.y) ^ 2))
      let cpa := idx.map (fun j =>
        env.cpa_calculations X.x X.y pr.x pr.y (Xob2.getD j 0) (Yob2.getD j 0)
          (pr.Xobs.getD j 0) (pr.Yobs.getD j 0) p.dt)
      let dcpaRow := cpa.map (fun q => q.1)
      let tcpaRow := cpa.map (fun q => q.2.1)
      let vrelRow := cpa.map (fun q => q.2.2.1)
      let cpa2 := idx.map (fun j =>
        env.cpa_calculations_0speed X.x X.y (Xob2.getD j 0) (Yob2.getD j 0)
          Xdot.x Xdot.y (ob.2.2.1.getD j 0) (ob.2.2.2.getD j 0) (dRow.getD j 0))
      let riskRow := idx.map (fun j =>
        env.risk_calculations (dcpaRow.getD j 0) (tcpaRow.getD j 0)
          (dRow.getD j 0) (vrelRow.getD j 0))
      ⟨dcpaRow, tcpaRow, vrelRow, dRow, riskRow,
       cpa2.map (fun q => q.1), cpa2.map (fun q => q.2.1)⟩

/-- Body of one loop iteration, written as a function of exactly the pieces
of loop state that the source step body reads: the live vessel state `X`,
the current obstacle positions, the active waypoint index, the controller
integral, the clock, the step index `i`, the `b` array as seen by the
controller call, and the previous step's record (the `[i-1]` array rows).
`mkRec` below instantiates it from the loop state. -/
noncomputable def mkRecAux (ani : Bool) (env : Env) (p : Params) (X : Vec6)
    (Xob Yob : List ℝ) (iw : ℕ) (ui t : ℝ) (i : ℕ) (barr : ℕ → ℝ)
    (last? : Option StepRec) : StepRec :=
  let mtn : ℝ := 1 / 1852
  let x_nmi := X.x * mtn
  let y_nmi := X.y * mtn
  let Xob_nmi := Xob.map (fun w => w * mtn)
  let Yob_nmi := Yob.map (fun w => w * mtn)
  let i_wpt2 := env.waypoint_selection Xwpt Ywpt x_nmi y_nmi iw
  let psi_wp_i := env.planning Xwpt Ywpt x_nmi y_nmi i_wpt2
  let ra := reactive_avoidance Xob_nmi Yob_nmi x_nmi y_nmi X.psi t
  let psi_p_i := psi_wp_i + 1 * ra.psi_oa
  let ctr := env.controller psi_p_i X.psi X.r 43.3 barr ui p.dt
  let tau_ac_i := env.actuator_modeling ctr.1 20
  let Xdot := env.vessel_dynamics X (tau_ac_i, ctr.2.1)
  let ob := env.obstacle_sim Xob Yob p.Vob p.psiob p.dt
  let rows := mkRows ani env p X Xdot ob ra last?
  let kdirFinal : ℝ :=
    if p.llmOn && p.llmAvailable && (i % 200 == 0) then
      ((extract_kdir_from_response
        (env.hook rows.risk rows.dist ra.bearing_ob rows.dcpa rows.tcpa) : ℤ) : ℝ)
    else 1
  { x := X.x, y := X.y, psi := X.psi, r := X.r, b := X.b, u := X.u,
    u_p := 43.3, v_c := ctr.2.1, tau_c := ctr.1, tau_ac := tau_ac_i,
    psi_p := psi_p_i, psi_wp := psi_wp_i, psi_oa := ra.psi_oa,
    V_x := Xdot.x, V_y := Xdot.y, Kdir := kdirFinal,
    DCPA := rows.dcpa, TCPA := rows.tcpa, Vrel := rows.vrel,
    DCPA2 := rows.dcpa2, TCPA2 := rows.tcpa2,
    Distance_ob := rows.dist, Bearing_ob := ra.bearing_ob, Risk := rows.risk,
    Xobs := ob.1, Yobs := ob.2.1, Vxobs := ob.2.2.1, Vyobs := ob.2.2.2 }

/-- The record produced by one iteration of the main loop at step
`i = s.recs.length` (body of `src/core/simulation.py` 191-311 for
`ani = true`, 320-421 for `ani = false`; the branches differ numerically only
inside `mkRows`).  Note that `psi_p[i] = psi_wp[i] + Kdir[i] * psi_oa[i]` is
computed while `Kdir[i]` still holds its initialisation `1` — the decision
block that assigns `Kdir[i]` runs only afterwards, so the recorded `Kdir` is
the extracted directive at decision steps but never enters `psi_p`. -/
noncomputable def mkRec (ani : Bool) (env : Env) (p : Params) (s : LoopState) : StepRec :=
  mkRecAux ani env p s.X s.Xob s.Yob s.i_wpt s.ui_psi1 s.t s.recs.length
    (bArr s.recs s.X.b) s.recs.getLast?

/-- The loop-carried updates of the same iteration: new vessel state from
`integration`, new obstacle positions from `obstacle_sim`, new controller
integral, new waypoint index. -/
noncomputable def nextCarry (env : Env) (p : Params) (s : LoopState) :
    Vec6 × List ℝ × List ℝ × ℝ × ℕ :=
  let X := s.X
  let mtn : ℝ := 1 / 1852
  let x_nmi := X.x * mtn
  let y_nmi := X.y * mtn
  let Xob_nmi := s.Xob.map (fun w => w * mtn)
  let Yob_nmi := s.Yob.map (fun w => w * mtn)
  let i_wpt2 := env.waypoint_selection Xwpt Ywpt x_nmi y_nmi s.i_wpt
  let psi_wp_i := env.planning Xwpt Ywpt x_nmi y_nmi i_wpt2
  let ra := reactive_avoidance Xob_nmi Yob_nmi x_nmi y_nmi X.psi s.t
  let psi_p_i := psi_wp_i + 1 * ra.psi_oa
  let ctr := env.controller psi_p_i X.psi X.r 43.3 (bArr s.recs X.b) s.ui_psi1 p.dt
  let tau_ac_i := env.actuator_modeling ctr.1 20
  let Xdot := env.vessel_dynamics X (tau_ac_i, ctr.2.1)
  let X2 := env.integration X Xdot p.dt
  let ob := env.obstacle_sim s.Xob s.Yob p.Vob p.psiob p.dt
  (X2, ob.1, ob.2.1, ctr.2.2, i_wpt2)

/-- One full iteration of the main loop (`ani` selects the animated branch). -/
noncomputable def stepSim (ani : Bool) (env : Env) (p : Params) (s : LoopState) : LoopState :=
  let c := nextCarry env p s
  { X := c.1, Xob := c.2.1, Yob := c.2.2.1, ui_psi1 := c.2.2.2.1,
    i_wpt := c.2.2.2.2, t := s.t + p.dt, recs := s.recs ++ [mkRec ani env p s] }

/-- `n` iterations of the main loop from the initial state. -/
noncomputable def runSim (ani : Bool) (env : Env) (p : Params) : ℕ → LoopState
  | 0 => initState p
  | n + 1 => stepSim ani env p (runSim ani env p n)

/-- The non-animated execution path (`else` branch, lines 318-421). -/
noncomputable def runPlain (env : Env) (p : Params) (n : ℕ) : LoopState :=
  runSim false env p n

/-- The animated execution path (lines 189-311; rendering calls
`animate_step` / `writer.grab_frame` have no numeric effect and are not
modelled). -/
noncomputable def runAni (env : Env) (p : Params) (n : ℕ) : LoopState :=
  runSim true env p n

/-- `run_simulation` from scenario setup onward: fetch the obstacle data for
`case_number`, evaluate `CPA_ob = [LOA_ob[0] * 1] * len(Xob)` — which raises
`IndexError` (`none`) when the obstacle list is empty, because `LOA_ob[0]` is
evaluated before the multiplication by `len(Xob)` — then run `N` loop steps.
Plotting and file output after the loop are not modelled. -/
noncomputable def run_simulation_model (env : Env) (case_number : ℤ) (N : ℕ)
    (dt : ℝ) (llmOn llmAvailable animation : Bool) : Option (List StepRec) :=
  let d := get_obstacle_data case_number
  let LOA_ob : List ℝ := List.replicate d.1.length 80
  match LOA_ob.head? with
  | none => none
  | some h =>
      let _CPA_ob : List ℝ := List.replicate d.1.length (h * 1)
      let p : Params :=
        ⟨dt, d.1, d.2.1, d.2.2.1, d.2.2.2, llmOn, llmAvailable⟩
      some ((runSim animation env p N).recs)

/-! ### Concrete environments and parameter sets used for witnesses and
counterexamples. -/

/-- A simple concrete environment: trivial collaborators, a risk function
that is constantly `1`, and a hook that returns an unrecognised directive. -/
noncomputable def cEnv : Env :=
  { waypoint_selection := fun _ _ _ _ i => i,
    planning := fun _ _ _ _ _ => 0,
    vessel_dynamics := fun _ _ => ⟨0, 0, 0, 0, 0, 0⟩,
    integration := fun X _ _ => X,
    obstacle_sim := fun xo yo _ _ _ =>
      (xo, yo, xo.map (fun _ => 0), yo.map (fun _ => 0)),
    cpa_calculations := fun _ _ _ _ _ _ _ _ _ => (0, 0, 0, 0, 0),
    cpa_calculations_0speed := fun _ _ _ _ _ _ _ _ _ => (0, 0, 0, 0, 0),
    controller := fun _ _ _ _ _ _ _ => (0, 0, 0),
    actuator_modeling := fun x _ => x,
    risk_calculations := fun _ _ _ _ => 1,
    hook := fun _ _ _ _ _ => ("hello") }

/-- Same environment but with a hook that always orders a port turn. -/
noncomputable def cEnvPort : Env :=
  { cEnv with hook := fun _ _ _ _ _ => ("turn port") }

/-- One obstacle, LLM decision hook enabled and available. -/
def cP : Params :=
  ⟨1, [100], [0], [1], [0], true, true⟩

/-- Zero obstacles, LLM decision hook disabled. -/
def cPz : Params :=
  ⟨1, [], [], [], [], false, false⟩

/-- Agreement of two step records on every field that the C6 claim lists and
that the loop reads back, i.e. everything except the `Risk` row and the
recorded `Kdir` value. -/
structure RecEqEx (a c : StepRec) : Prop where
  hx : a.x = c.x
  hy : a.y = c.y
  hpsi : a.psi = c.psi
  hr : a.r = c.r
  hb : a.b = c.b
  hu : a.u = c.u
  hup : a.u_p = c.u_p
  hvc : a.v_c = c.v_c
  htauc : a.tau_c = c.tau_c
  htauac : a.tau_ac = c.tau_ac
  hpsip : a.psi_p = c.psi_p
  hpsiwp : a.psi_wp = c.psi_wp
  hpsioa : a.psi_oa = c.psi_oa
  hVx : a.V_x = c.V_x
  hVy : a.V_y = c.V_y
  hDCPA : a.DCPA = c.DCPA
  hTCPA : a.TCPA = c.TCPA
  hVrel : a.Vrel = c.Vrel
  hDCPA2 : a.DCPA2 = c.DCPA2
  hTCPA2 : a.TCPA2 = c.TCPA2
  hDist : a.Distance_ob = c.Distance_ob
  hBear : a.Bearing_ob = c.Bearing_ob
  hXobs : a.Xobs = c.Xobs
  hYobs : a.Yobs = c.Yobs
  hVxobs : a.Vxobs = c.Vxobs
  hVyobs : a.Vyobs = c.Vyobs

/-- Rowwise relation between the record lists of the two branches: same
length, all non-`Risk` fields agree everywhere, `Risk` rows agree from
step 1 onward. -/
def RecsRel (la lb : List StepRec) : Prop :=
  la.length = lb.length ∧
  ∀ i a c, la[i]? = some a → lb[i]? = some c →
    RecEqEx a c ∧ (1 ≤ i → a.Risk = c.Risk)

/-- Relation between the loop-carried states of the two branches: all
carried components equal and records related by `RecsRel`. -/
def StateRel (sa sb : LoopState) : Prop :=
  sa.X = sb.X ∧ sa.Xob = sb.Xob ∧ sa.Yob = sb.Yob ∧ sa.ui_psi1 = sb.ui_psi1 ∧
  sa.i_wpt = sb.i_wpt ∧ sa.t = sb.t ∧ RecsRel sa.recs sb.recs

/-! ### Helper lemmas about `zmf` -/

theorem zmf_of_le {x a b : ℝ} (h : x ≤ a) : zmf x a b = 1 := by
  simp [zmf, h]

theorem zmf_of_lt_mid {x a b : ℝ} (h1 : a < x) (h2 : x < (a + b) / 2) :
    zmf x a b = 1 - 2 * ((x - a) / (b - a)) ^ 2 := by
  rw [zmf, if_neg (by linarith), if_pos h2]

theorem zmf_of_mid_le {x a b : ℝ} (hab : a < b) (h1 : (a + b) / 2 ≤ x) (h2 : x < b) :
    zmf x a b = 2 * ((x - b) / (b - a)) ^ 2 := by
  rw [zmf, if_neg (by linarith), if_neg (by linarith), if_pos h2]

theorem zmf_of_ge {x a b : ℝ} (hab : a < b) (h : b ≤ x) : zmf x a b = 0 := by
  rw [zmf, if_neg (by linarith), if_neg (by linarith), if_neg (by linarith)]

theorem zmf_mem_Icc {a b : ℝ} (hab : a < b) (x : ℝ) :
    zmf x a b ∈ Set.Icc (0 : ℝ) 1 := by
  have hc : 0 < b - a := by linarith
  constructor
  · rw [zmf]; split_ifs with h1 h2 h3
    · norm_num
    · have ht1 : 0 < (x - a) / (b - a) := div_pos (by linarith) hc
      have ht2 : (x - a) / (b - a) < 1 / 2 := by rw [div_lt_iff hc]; linarith
      nlinarith
    · positivity
    · exact le_rfl
  · rw [zmf]; split_ifs with h1 h2 h3
    · exact le_rfl
    · nlinarith [sq_nonneg ((x - a) / (b - a))]
    · have hs1 : -(1 / 2) ≤ (x - b) / (b - a) := by rw [le_div_iff hc]; linarith
      have hs2 : (x - b) / (b - a) ≤ 0 :=
        div_nonpos_of_nonpos_of_nonneg (by linarith) hc.le
      nlinarith
    · norm_num

theorem zmf_antitone {a b : ℝ} (hab : a < b) : Antitone (fun x => zmf x a b) := by
  intro d1 d2 h
  have hc : 0 < b - a := by linarith
  simp only
  rcases le_or_lt d2 a with h2a | h2a
  · rw [zmf_of_le (le_trans h h2a), zmf_of_le h2a]
  · rcases lt_or_le d2 ((a + b) / 2) with h2m | h2m
    · rw [zmf_of_lt_mid h2a h2m]
      rcases le_or_lt d1 a with h1a | h1a
      · rw [zmf_of_le h1a]; nlinarith [sq_nonneg ((d2 - a) / (b - a))]
      · rw [zmf_of_lt_mid h1a (lt_of_le_of_lt h h2m)]
        have ht1 : 0 ≤ (d1 - a) / (b - a) := div_nonneg (by linarith) hc.le
        have ht : (d1 - a) / (b - a) ≤ (d2 - a) / (b - a) :=
          (div_le_div_right hc).2 (by linarith)
        nlinarith
    · rcases lt_or_le d2 b with h2b | h2b
      · rw [zmf_of_mid_le hab h2m h2b]
        have hs1 : -(1 / 2) ≤ (d2 - b) / (b - a) := by rw [le_div_iff hc]; linarith
        have hs2 : (d2 - b) / (b - a) ≤ 0 :=
          div_nonpos_of_nonpos_of_nonneg (by linarith) hc.le
        rcases le_or_lt d1 a with h1a | h1a
        · rw [zmf_of_le h1a]; nlinarith
        · rcases lt_or_le d1 ((a + b) / 2) with h1m | h1m
          · rw [zmf_of_lt_mid h1a h1m]
            have ht1 : 0 ≤ (d1 - a) / (b - a) := div_nonneg (by linarith) hc.le
            have ht2 : (d1 - a) / (b - a) < 1 / 2 := by rw [div_lt_iff hc]; linarith
            nlinarith
          · rw [zmf_of_mid_le hab h1m (lt_of_le_of_lt h h2b)]
            have hs1' : (d1 - b) / (b - a) ≤ (d2 - b) / (b - a) :=
              (div_le_div_right hc).2 (by linarith)
            have hs2' : (d1 - b) / (b - a) ≤ 0 :=
              div_nonpos_of_nonpos_of_nonneg (by linarith) hc.le
            nlinarith
      · rw [zmf_of_ge hab h2b]
        rcases le_or_lt d1 a with h1a | h1a
        · rw [zmf_of_le h1a]; norm_num
        · rcases lt_or_le d1 ((a + b) / 2) with h1m | h1m
          · rw [zmf_of_lt_mid h1a h1m]
            have ht1 : 0 ≤ (d1 - a) / (b - a) := div_nonneg (by linarith) hc.le
            have ht2 : (d1 - a) / (b - a) < 1 / 2 := by rw [div_lt_iff hc]; linarith
            nlinarith
          · rcases lt_or_le d1 b with h1b | h1b
            · rw [zmf_of_mid_le hab h1m h1b]; positivity
            · rw [zmf_of_ge hab h1b]

theorem hasDerivAt_zmfP1 {a b : ℝ} (hab : a < b) (d : ℝ) :
    HasDerivAt (fun x => 1 - 2 * ((x - a) / (b - a)) ^ 2)
      (-4 * (d - a) / (b - a) ^ 2) d := by
  have hc : b - a ≠ 0 := by intro h; linarith [hab]
  have h1 : HasDerivAt (fun x : ℝ => (x - a) / (b - a)) (1 / (b - a)) d :=
    ((hasDerivAt_id d).sub_const a).div_const (b - a)
  have h2 := (h1.pow 2).const_mul (2 : ℝ)
  have h3 := h2.const_sub (1 : ℝ)
  convert h3 using 1
  field_simp
  ring

theorem hasDerivAt_zmfP2 {a b : ℝ} (hab : a < b) (d : ℝ) :
    HasDerivAt (fun x => 2 * ((x - b) / (b - a)) ^ 2)
      (4 * (d - b) / (b - a) ^ 2) d := by
  have hc : b - a ≠ 0 := by intro h; linarith [hab]
  have h1 : HasDerivAt (fun x : ℝ => (x - b) / (b - a)) (1 / (b - a)) d :=
    ((hasDerivAt_id d).sub_const b).div_const (b - a)
  have h2 := (h1.pow 2).const_mul (2 : ℝ)
  convert h2 using 1
  field_simp
  ring

theorem zmf_hasDerivAt {a b : ℝ} (hab : a < b) {d : ℝ} (hd : d ∈ Set.Ioo a b) :
    HasDerivAt (fun x => zmf x a b) (zmfDeriv d a b) d := by
  obtain ⟨hda, hdb⟩ := hd
  have hc : (0 : ℝ) < b - a := by linarith
  rcases lt_trichotomy d ((a + b) / 2) with hlt | heq | hgt
  · have hmem : Set.Ioo a ((a + b) / 2) ∈ nhds d := Ioo_mem_nhds hda hlt
    have heq' : (fun x => zmf x a b) =ᶠ[nhds d]
        (fun x => 1 - 2 * ((x - a) / (b - a)) ^ 2) :=
      Filter.eventuallyEq_of_mem hmem (fun x hx => zmf_of_lt_mid hx.1 hx.2)
    have h0 := (hasDerivAt_zmfP1 hab d).congr_of_eventuallyEq heq'
    rwa [zmfDeriv, if_pos hlt]
  · subst heq
    have hmb : (a + b) / 2 < b := by linarith
    have ham : a < (a + b) / 2 := by linarith
    have hR : HasDerivWithinAt (fun x => zmf x a b)
        (4 * ((a + b) / 2 - b) / (b - a) ^ 2) (Set.Ici ((a + b) / 2)) ((a + b) / 2) := by
      have base := (hasDerivAt_zmfP2 hab ((a + b) / 2)).hasDerivWithinAt
        (s := Set.Ici ((a + b) / 2))
      refine base.congr_of_eventuallyEq ?_ (zmf_of_mid_le hab le_rfl hmb)
      have hmem : Set.Ici ((a + b) / 2) ∩ Set.Iio b ∈
          nhdsWithin ((a + b) / 2) (Set.Ici ((a + b) / 2)) :=
        inter_mem_nhdsWithin _ (Iio_mem_nhds hmb)
      exact Filter.eventuallyEq_of_mem hmem (fun x hx => zmf_of_mid_le hab hx.1 hx.2)
    have hL : HasDerivWithinAt (fun x => zmf x a b)
        (4 * ((a + b) / 2 - b) / (b - a) ^ 2) (Set.Iic ((a + b) / 2)) ((a + b) / 2) := by
      have hD : -4 * ((a + b) / 2 - a) / (b - a) ^ 2
          = 4 * ((a + b) / 2 - b) / (b - a) ^ 2 := by ring
      have base := (hasDerivAt_zmfP1 hab ((a + b) / 2)).hasDerivWithinAt
        (s := Set.Iic ((a + b) / 2))
      rw [hD] at base
      have hmid : zmf ((a + b) / 2) a b
          = 1 - 2 * (((a + b) / 2 - a) / (b - a)) ^ 2 := by
        rw [zmf_of_mid_le hab le_rfl hmb]
        field_simp
        ring
      refine base.congr_of_eventuallyEq ?_ hmid
      have hmem : Set.Iic ((a + b) / 2) ∩ Set.Ioi a ∈
          nhdsWithin ((a + b) / 2) (Set.Iic ((a + b) / 2)) :=
        inter_mem_nhdsWithin _ (Ioi_mem_nhds ham)
      refine Filter.eventuallyEq_of_mem hmem (fun x hx => ?_)
      rcases lt_or_eq_of_le (Set.mem_Iic.1 hx.1) with hxm | hxm
      · exact zmf_of_lt_mid (Set.mem_Ioi.1 hx.2) hxm
      · subst hxm
        exact hmid
    have := hL.union hR
    rw [Set.Iic_union_Ici, hasDerivWithinAt_univ] at this
    rwa [zmfDeriv, if_neg (lt_irrefl _)]
  · have hmem : Set.Ioo ((a + b) / 2) b ∈ nhds d := Ioo_mem_nhds hgt hdb
    have heq' : (fun x => zmf x a b) =ᶠ[nhds d]
        (fun x => 2 * ((x - b) / (b - a)) ^ 2) :=
      Filter.eventuallyEq_of_mem hmem
        (fun x hx => zmf_of_mid_le hab (le_of_lt hx.1) hx.2)
    have h0 := (hasDerivAt_zmfP2 hab d).congr_of_eventuallyEq heq'
    rwa [zmfDeriv, if_neg (not_lt.2 (le_of_lt hgt))]

theorem zmfDeriv_continuousAt {a b : ℝ} (hab : a < b) :
    ContinuousAt (fun x => zmfDeriv x a b) ((a + b) / 2) := by
  have hEq : -4 * ((a + b) / 2 - a) / (b - a) ^ 2
      = 4 * ((a + b) / 2 - b) / (b - a) ^ 2 := by ring
  rw [← continuousWithinAt_univ, ← Set.Iic_union_Ici (a := (a + b) / 2)]
  apply ContinuousWithinAt.union
  · have hcont : ContinuousWithinAt (fun x => -4 * (x - a) / (b - a) ^ 2)
        (Set.Iic ((a + b) / 2)) ((a + b) / 2) :=
      ((continuous_const.mul (continuous_id.sub continuous_const)).div_const
        ((b - a) ^ 2)).continuousWithinAt
    refine hcont.congr (fun y hy => ?_) ?_
    · rcases lt_or_eq_of_le (Set.mem_Iic.1 hy) with hym | hym
      · rw [zmfDeriv, if_pos hym]
      · subst hym
        rw [zmfDeriv, if_neg (lt_irrefl _)]
        exact hEq.symm
    · rw [zmfDeriv, if_neg (lt_irrefl _)]
      exact hEq.symm
  · have hcont : ContinuousWithinAt (fun x => 4 * (x - b) / (b - a) ^ 2)
        (Set.Ici ((a + b) / 2)) ((a + b) / 2) :=
      ((continuous_const.mul (continuous_id.sub continuous_const)).div_const
        ((b - a) ^ 2)).continuousWithinAt
    refine hcont.congr (fun y hy => ?_) ?_
    · rw [zmfDeriv, if_neg (not_lt.2 (Set.mem_Ici.1 hy))]
    · rw [zmfDeriv, if_neg (lt_irrefl _)]

/-! ### Helper lemmas about lists and the avoidance field -/

theorem zipMapSumRange (f : ℝ × ℝ → ℝ) (l1 : List ℝ) :
    ∀ l2 : List ℝ, l1.length = l2.length →
      ((l1.zip l2).map f).sum
        = ((List.range l1.length).map (fun i => f (l1.getD i 0, l2.getD i 0))).sum := by
  induction l1 with
  | nil => intro l2 _; simp
  | cons a l1 ih =>
    intro l2 h
    cases l2 with
    | nil => simp at h
    | cons c l2 =>
      have h' : l1.length = l2.length := by simpa using h
      simp only [List.zip_cons_cons, List.map_cons, List.sum_cons, List.length_cons]
      rw [List.range_succ_eq_map, List.map_cons, List.sum_cons, List.map_map]
      rw [ih l2 h']
      simp [Function.comp_def]

theorem sum_bounds_of_mem (l : List ℝ) (h : ∀ z ∈ l, -1 ≤ z ∧ z ≤ 0) :
    -(l.length : ℝ) ≤ l.sum ∧ l.sum ≤ 0 := by
  induction l with
  | nil => simp
  | cons a l ih =>
    have ha := h a (by simp)
    have ih' := ih (fun z hz => h z (by simp [hz]))
    simp only [List.sum_cons, List.length_cons]
    constructor
    · push_cast
      linarith [ih'.1, ha.1]
    · linarith [ih'.2, ha.2]

theorem reactive_avoidance_psi_oa (x_ob y_ob : List ℝ) (x y psi t : ℝ) :
    (reactive_avoidance x_ob y_ob x y psi t).psi_oa =
      (((x_ob.zip y_ob).map (fun p =>
          zmf (Real.sqrt ((p.1 - x) ^ 2 + (p.2 - y) ^ 2)) (600.0 / 1852) (1200 / 1852)
          * (-Real.exp (-((psi - atan2 (p.2 - y) (p.1 - x)) ^ 2)
              / (2 * (80 * Real.pi / 180) ^ 2))))).sum) * 2 := by
  simp only [reactive_avoidance, List.zip_map', List.map_map, Function.comp_def]

theorem reactive_avoidance_w_r (x_ob y_ob : List ℝ) (x y psi t : ℝ) :
    (reactive_avoidance x_ob y_ob x y psi t).w_r =
      (x_ob.zip y_ob).map (fun p =>
        zmf (Real.sqrt ((p.1 - x) ^ 2 + (p.2 - y) ^ 2)) (600.0 / 1852) (1200 / 1852)) := by
  simp only [reactive_avoidance, List.map_map, Function.comp_def]

theorem reactive_avoidance_w_b (x_ob y_ob : List ℝ) (x y psi t : ℝ) :
    (reactive_avoidance x_ob y_ob x y psi t).w_b =
      (x_ob.zip y_ob).map (fun p =>
        -Real.exp (-((psi - atan2 (p.2 - y) (p.1 - x)) ^ 2)
          / (2 * (80 * Real.pi / 180) ^ 2))) := by
  simp only [reactive_avoidance, List.map_map, Function.comp_def]

theorem bearing_weight_bounds (beta : ℝ) :
    -1 ≤ -Real.exp (-(beta ^ 2) / (2 * (80 * Real.pi / 180) ^ 2)) ∧
    -Real.exp (-(beta ^ 2) / (2 * (80 * Real.pi / 180) ^ 2)) ≤ 0 := by
  have hs : (0 : ℝ) < 2 * (80 * Real.pi / 180) ^ 2 := by positivity
  constructor
  · have h1 : Real.exp (-(beta ^ 2) / (2 * (80 * Real.pi / 180) ^ 2)) ≤ 1 := by
      apply Real.exp_le_one_iff.2
      apply div_nonpos_of_nonpos_of_nonneg (neg_nonpos.2 (sq_nonneg beta)) hs.le
    linarith
  · linarith [Real.exp_pos (-(beta ^ 2) / (2 * (80 * Real.pi / 180) ^ 2))]

/-! ### Claim theorems -/

/-- C8: the range weight `zmf d a b` equals `1` for `d ≤ a`, equals
`1 - 2 t^2` strictly between `a` and the midpoint, equals `2 (1 - t)^2`
between the midpoint and `b` (with `t = (d - a)/(b - a)`), equals `0` for
`d ≥ b`; it is continuous and continuously differentiable at the midpoint
(it has a derivative `zmfDeriv` throughout `(a, b)` and that derivative is
continuous at the midpoint); consequently it is monotone non-increasing with
values in `[0, 1]`. -/
theorem zmf_piecewise_spec (a b : ℝ) (hab : a < b) :
    (∀ d, d ≤ a → zmf d a b = 1) ∧
    (∀ d, a < d → d < (a + b) / 2 → zmf d a b = 1 - 2 * ((d - a) / (b - a)) ^ 2) ∧
    (∀ d, (a + b) / 2 ≤ d → d < b → zmf d a b = 2 * (1 - (d - a) / (b - a)) ^ 2) ∧
    (∀ d, b ≤ d → zmf d a b = 0) ∧
    ContinuousAt (fun d => zmf d a b) ((a + b) / 2) ∧
    (∀ d ∈ Set.Ioo a b, HasDerivAt (fun x => zmf x a b) (zmfDeriv d a b) d) ∧
    ContinuousAt (fun d => zmfDeriv d a b) ((a + b) / 2) ∧
    Antitone (fun d => zmf d a b) ∧
    (∀ d, zmf d a b ∈ Set.Icc (0 : ℝ) 1) := by
  have hc : (0 : ℝ) < b - a := by linarith
  refine ⟨fun d hd => zmf_of_le hd,
          fun d h1 h2 => zmf_of_lt_mid h1 h2,
          fun d h1 h2 => ?_,
          fun d hd => zmf_of_ge hab hd, ?_,
          fun d hd => zmf_hasDerivAt hab hd,
          zmfDeriv_continuousAt hab,
          zmf_antitone hab,
          fun d => zmf_mem_Icc hab d⟩
  · rw [zmf_of_mid_le hab h1 h2]
    have hx : (d - b) / (b - a) = -(1 - (d - a) / (b - a)) := by
      field_simp
    rw [hx]
    ring
  · have hm : ((a + b) / 2) ∈ Set.Ioo a b := ⟨by linarith, by linarith⟩
    exact (zmf_hasDerivAt hab hm).continuousAt

/-- Witness for C8 at the thresholds used by `reactive_avoidance`
(`a = 600/1852`, `b = 1200/1852` nautical miles). -/
theorem zmf_piecewise_spec_app :
    ((600.0 : ℝ) / 1852 < 1200 / 1852) ∧
    Antitone (fun d => zmf d (600.0 / 1852) (1200 / 1852)) :=
  ⟨by norm_num,
   (zmf_piecewise_spec (600.0 / 1852) (1200 / 1852) (by norm_num)).2.2.2.2.2.2.2.1⟩

/-- C3: `reactive_avoidance` returns the bias
`2 * Σ_i w_r(d_i) * w_b(β_i)` with `d_i` the obstacle distance and
`β_i = ψ - atan2 (Δy, Δx)` for `Δ` = obstacle minus own position; and for a
single obstacle dead ahead (`β = 0`) at distance `d ≤ a` the bias equals
`-2`, in particular it is negative (a port-avoiding push). -/
theorem reactive_avoidance_bias_formula :
    (∀ (x_ob y_ob : List ℝ) (x y psi t : ℝ), x_ob.length = y_ob.length →
      (reactive_avoidance x_ob y_ob x y psi t).psi_oa =
        2 * ((List.range x_ob.length).map (fun i =>
          zmf (Real.sqrt ((x_ob.getD i 0 - x) ^ 2 + (y_ob.getD i 0 - y) ^ 2))
              (600.0 / 1852) (1200 / 1852) *
          (-Real.exp (-((psi - atan2 (y_ob.getD i 0 - y) (x_ob.getD i 0 - x)) ^ 2)
            / (2 * (80 * Real.pi / 180) ^ 2))))).sum) ∧
    (∀ (xo yo x y psi t : ℝ),
      psi - atan2 (yo - y) (xo - x) = 0 →
      Real.sqrt ((xo - x) ^ 2 + (yo - y) ^ 2) ≤ 600.0 / 1852 →
      (reactive_avoidance [xo] [yo] x y psi t).psi_oa = -2 ∧
      (reactive_avoidance [xo] [yo] x y psi t).psi_oa < 0) := by
  constructor
  · intro x_ob y_ob x y psi t hlen
    rw [reactive_avoidance_psi_oa, zipMapSumRange _ x_ob y_ob hlen, mul_comm]
  · intro xo yo x y psi t hbear hdist
    have h1 : (reactive_avoidance [xo] [yo] x y psi t).psi_oa
        = (zmf (Real.sqrt ((xo - x) ^ 2 + (yo - y) ^ 2)) (600.0 / 1852) (1200 / 1852)
           * (-Real.exp (-((psi - atan2 (yo - y) (xo - x)) ^ 2)
               / (2 * (80 * Real.pi / 180) ^ 2)))) * 2 := by
      rw [reactive_avoidance_psi_oa]
      simp
    rw [h1, zmf_of_le hdist, hbear]
    norm_num

/-- Witness for C3: a single obstacle at `(1/10, 0)` seen from the origin
with heading `0` is dead ahead (`atan2 0 (1/10) = 0`) at distance
`1/10 ≤ 600/1852`, and the returned bias is `-2 < 0`. -/
theorem reactive_avoidance_bias_formula_app :
    (([(1 : ℝ) / 10].length = [(0 : ℝ)].length) ∧
     ((0 : ℝ) - atan2 ((0 : ℝ) - 0) ((1 : ℝ) / 10 - 0) = 0) ∧
     (Real.sqrt (((1 : ℝ) / 10 - 0) ^ 2 + ((0 : ℝ) - 0) ^ 2) ≤ 600.0 / 1852)) ∧
    (reactive_avoidance [(1 : ℝ) / 10] [(0 : ℝ)] 0 0 0 0).psi_oa = -2 := by
  have hb : (0 : ℝ) - atan2 ((0 : ℝ) - 0) ((1 : ℝ) / 10 - 0) = 0 := by
    rw [atan2, if_pos (by norm_num : (0 : ℝ) < 1 / 10 - 0)]
    norm_num
  have hd : Real.sqrt (((1 : ℝ) / 10 - 0) ^ 2 + ((0 : ℝ) - 0) ^ 2) ≤ 600.0 / 1852 := by
    have h0 : (((1 : ℝ) / 10 - 0) ^ 2 + ((0 : ℝ) - 0) ^ 2) = (1 / 10 : ℝ) ^ 2 := by norm_num
    rw [h0, Real.sqrt_sq (by norm_num : (0 : ℝ) ≤ 1 / 10)]
    norm_num
  exact ⟨⟨rfl, hb, hd⟩,
    ((reactive_avoidance_bias_formula.2 (1 / 10) 0 0 0 0 0 hb hd).1)⟩

/-- C10: for every vessel pose and every obstacle list (any real inputs,
including coincident positions), the avoidance bias is never positive and is
bounded below by `-2 N`; each range weight lies in `[0, 1]` and each bearing
weight in `[-1, 0]`, so the field alone always pushes in one direction. -/
theorem reactive_avoidance_bias_bounds :
    ∀ (x_ob y_ob : List ℝ) (x y psi t : ℝ), x_ob.length = y_ob.length →
      (reactive_avoidance x_ob y_ob x y psi t).psi_oa ≤ 0 ∧
      -(2 * (x_ob.length : ℝ)) ≤ (reactive_avoidance x_ob y_ob x y psi t).psi_oa ∧
      (∀ w ∈ (reactive_avoidance x_ob y_ob x y psi t).w_r, 0 ≤ w ∧ w ≤ 1) ∧
      (∀ w ∈ (reactive_avoidance x_ob y_ob x y psi t).w_b, -1 ≤ w ∧ w ≤ 0) := by
  intro x_ob y_ob x y psi t hlen
  have hab : (600.0 / 1852 : ℝ) < 1200 / 1852 := by norm_num
  have hterms : ∀ z ∈ (x_ob.zip y_ob).map (fun p =>
      zmf (Real.sqrt ((p.1 - x) ^ 2 + (p.2 - y) ^ 2)) (600.0 / 1852) (1200 / 1852)
      * (-Real.exp (-((psi - atan2 (p.2 - y) (p.1 - x)) ^ 2)
          / (2 * (80 * Real.pi / 180) ^ 2)))), -1 ≤ z ∧ z ≤ 0 := by
    intro z hz
    rcases List.mem_map.1 hz with ⟨p, _, rfl⟩
    have hr := zmf_mem_Icc hab (Real.sqrt ((p.1 - x) ^ 2 + (p.2 - y) ^ 2))
    have hbw := bearing_weight_bounds (psi - atan2 (p.2 - y) (p.1 - x))
    obtain ⟨hr0, hr1⟩ := hr
    obtain ⟨hb0, hb1⟩ := hbw
    constructor
    · nlinarith
    · exact mul_nonpos_of_nonneg_of_nonpos hr0 hb1
  have hsum := sum_bounds_of_mem _ hterms
  have hlenz : (((x_ob.zip y_ob).map (fun p =>
      zmf (Real.sqrt ((p.1 - x) ^ 2 + (p.2 - y) ^ 2)) (600.0 / 1852) (1200 / 1852)
      * (-Real.exp (-((psi - atan2 (p.2 - y) (p.1 - x)) ^ 2)
          / (2 * (80 * Real.pi / 180) ^ 2))))).length : ℝ) = (x_ob.length : ℝ) := by
    rw [List.length_map, List.length_zip, hlen, min_self, ← hlen]
  refine ⟨?_, ?_, ?_, ?_⟩
  · rw [reactive_avoidance_psi_oa]
    linarith [hsum.2]
  · rw [reactive_avoidance_psi_oa]
    rw [hlenz] at hsum
    linarith [hsum.1]
  · intro w hw
    rw [reactive_avoidance_w_r] at hw
    rcases List.mem_map.1 hw with ⟨p, _, rfl⟩
    exact zmf_mem_Icc hab _
  · intro w hw
    rw [reactive_avoidance_w_b] at hw
    rcases List.mem_map.1 hw with ⟨p, _, rfl⟩
    exact bearing_weight_bounds _

/-- Witness for C10 at a single obstacle coincident with the vessel. -/
theorem reactive_avoidance_bias_bounds_app :
    ([(0 : ℝ)].length = [(0 : ℝ)].length) ∧
    (reactive_avoidance [(0 : ℝ)] [(0 : ℝ)] 0 0 0 0).psi_oa ≤ 0 ∧
    -(2 * (([(0 : ℝ)].length : ℕ) : ℝ)) ≤
      (reactive_avoidance [(0 : ℝ)] [(0 : ℝ)] 0 0 0 0).psi_oa :=
  ⟨rfl,
   (reactive_avoidance_bias_bounds [0] [0] 0 0 0 0 rfl).1,
   (reactive_avoidance_bias_bounds [0] [0] 0 0 0 0 rfl).2.1⟩

/-- C9: the spec-modelled risk score lies in `[0, 1]` for every input, is
monotone non-decreasing as DCPA decreases and as TCPA decreases toward `0⁺`
(antitone in each argument), and — being a total function on `ℝ⁴` — is
defined at every boundary value including `TCPA ≤ 0` and distance `0`. -/
theorem risk_model_bounded_monotone :
    (∀ dcpa tcpa dist vrel : ℝ,
      risk_calculations_model dcpa tcpa dist vrel ∈ Set.Icc (0 : ℝ) 1) ∧
    (∀ tcpa dist vrel : ℝ,
      Antitone (fun dcpa => risk_calculations_model dcpa tcpa dist vrel)) ∧
    (∀ dcpa dist vrel : ℝ,
      Antitone (fun tcpa => risk_calculations_model dcpa tcpa dist vrel)) := by
  refine ⟨?_, ?_, ?_⟩
  · intro dcpa tcpa dist vrel
    constructor
    · exact (Real.exp_pos _).le
    · apply Real.exp_le_one_iff.2
      have h1 := le_max_right dcpa (0 : ℝ)
      have h2 := le_max_right tcpa (0 : ℝ)
      linarith
  · intro tcpa dist vrel d1 d2 hd
    apply Real.exp_le_exp.2
    have := max_le_max hd (le_refl (0 : ℝ))
    linarith
  · intro dcpa dist vrel t1 t2 ht
    apply Real.exp_le_exp.2
    have := max_le_max ht (le_refl (0 : ℝ))
    linarith

/-- Witness for C9: the risk value at `DCPA = 1`, `TCPA = 1`, distance `0`,
zero relative speed lies in `[0, 1]`. -/
theorem risk_model_bounded_monotone_app :
    risk_calculations_model 1 1 0 0 ∈ Set.Icc (0 : ℝ) 1 :=
  risk_model_bounded_monotone.1 1 1 0 0

/-! ### Structure of the simulation loop -/

theorem stepSim_recs (ani : Bool) (env : Env) (p : Params) (s : LoopState) :
    (stepSim ani env p s).recs = s.recs ++ [mkRec ani env p s] := rfl

theorem runSim_succ (ani : Bool) (env : Env) (p : Params) (n : ℕ) :
    runSim ani env p (n + 1) = stepSim ani env p (runSim ani env p n) := rfl

theorem runSim_length (ani : Bool) (env : Env) (p : Params) :
    ∀ n, (runSim ani env p n).recs.length = n := by
  intro n
  induction n with
  | zero => rfl
  | succ n ih =>
    rw [runSim_succ, stepSim_recs, List.length_append, ih]
    rfl

theorem runSim_recs_get_lt (ani : Bool) (env : Env) (p : Params) :
    ∀ {n i : ℕ}, i < n →
      (runSim ani env p n).recs[i]? = some (mkRec ani env p (runSim ani env p i)) := by
  intro n
  induction n with
  | zero => intro i h; omega
  | succ n ih =>
    intro i h
    rcases Nat.lt_succ_iff_lt_or_eq.1 h with h' | h'
    · rw [runSim_succ, stepSim_recs,
        List.getElem?_append_left (by rw [runSim_length]; exact h')]
      exact ih h'
    · subst h'
      rw [runSim_succ, stepSim_recs]
      have hlen := runSim_length ani env p i
      have hcat := List.getElem?_concat_length (runSim ani env p i).recs
        (mkRec ani env p (runSim ani env p i))
      rw [hlen] at hcat
      exact hcat

theorem runSim_recs_getLast (ani : Bool) (env : Env) (p : Params) (n : ℕ) :
    (runSim ani env p (n + 1)).recs.getLast?
      = some (mkRec ani env p (runSim ani env p n)) := by
  rw [runSim_succ, stepSim_recs]
  exact List.getLast?_concat _

theorem runSim_recs_mem (ani : Bool) (env : Env) (p : Params) :
    ∀ n, ∀ rc ∈ (runSim ani env p n).recs, ∃ s, rc = mkRec ani env p s := by
  intro n
  induction n with
  | zero => intro rc h; simp [runSim, initState] at h
  | succ n ih =>
    intro rc h
    rw [runSim_succ, stepSim_recs, List.mem_append] at h
    rcases h with h | h
    · exact ih rc h
    · exact ⟨runSim ani env p n, by simpa using h⟩

theorem mkRec_psi (ani : Bool) (env : Env) (p : Params) (s : LoopState) :
    (mkRec ani env p s).psi_p
      = (mkRec ani env p s).psi_wp + 1 * (mkRec ani env p s).psi_oa := by
  simp only [mkRec, mkRecAux]

theorem mkRec_psi_oa (ani : Bool) (env : Env) (p : Params) (s : LoopState) :
    (mkRec ani env p s).psi_oa
      = (reactive_avoidance (s.Xob.map (fun w => w * (1 / 1852)))
          (s.Yob.map (fun w => w * (1 / 1852)))
          (s.X.x * (1 / 1852)) (s.X.y * (1 / 1852)) s.X.psi s.t).psi_oa := by
  simp only [mkRec, mkRecAux]

theorem mkRec_DCPA_nil (ani : Bool) (env : Env) (p : Params) (s : LoopState)
    (h : s.recs = []) :
    (mkRec ani env p s).DCPA = List.replicate p.Xob0.length 1000 := by
  simp only [mkRec, mkRecAux, mkRows, h, List.getLast?_nil]

theorem mkRec_TCPA_nil (ani : Bool) (env : Env) (p : Params) (s : LoopState)
    (h : s.recs = []) :
    (mkRec ani env p s).TCPA = List.replicate p.Xob0.length 1000 := by
  simp only [mkRec, mkRecAux, mkRows, h, List.getLast?_nil]

theorem mkRec_DCPA_last (ani : Bool) (env : Env) (p : Params) (s : LoopState)
    (pr : StepRec) (h : s.recs.getLast? = some pr) :
    (mkRec ani env p s).DCPA
      = (List.range (mkRec ani env p s).Xobs.length).map (fun j =>
          (env.cpa_calculations (mkRec ani env p s).x (mkRec ani env p s).y pr.x pr.y
            ((mkRec ani env p s).Xobs.getD j 0) ((mkRec ani env p s).Yobs.getD j 0)
            (pr.Xobs.getD j 0) (pr.Yobs.getD j 0) p.dt).1) := by
  simp only [mkRec, mkRecAux, mkRows, h, List.map_map, Function.comp_def]

theorem mkRec_TCPA_last (ani : Bool) (env : Env) (p : Params) (s : LoopState)
    (pr : StepRec) (h : s.recs.getLast? = some pr) :
    (mkRec ani env p s).TCPA
      = (List.range (mkRec ani env p s).Xobs.length).map (fun j =>
          (env.cpa_calculations (mkRec ani env p s).x (mkRec ani env p s).y pr.x pr.y
            ((mkRec ani env p s).Xobs.getD j 0) ((mkRec ani env p s).Yobs.getD j 0)
            (pr.Xobs.getD j 0) (pr.Yobs.getD j 0) p.dt).2.1) := by
  simp only [mkRec, mkRecAux, mkRows, h, List.map_map, Function.comp_def]

theorem mkRec_Kdir_const_hook (ani : Bool) (env : Env) (p : Params) (s : LoopState)
    (resp : String) (hhook : ∀ r d br dc tc, env.hook r d br dc tc = resp) :
    (mkRec ani env p s).Kdir =
      if p.llmOn && p.llmAvailable && (s.recs.length % 200 == 0)
      then ((extract_kdir_from_response resp : ℤ) : ℝ) else 1 := by
  simp only [mkRec, mkRecAux, hhook]

theorem mkRec_Risk_empty (ani : Bool) (env : Env) (p : Params) (s : LoopState)
    (hx : s.Xob = []) (hy : s.Yob = []) (h0 : p.Xob0 = [])
    (hsim : ∀ V ps dtv, env.obstacle_sim [] [] V ps dtv = ([], [], [], [])) :
    (mkRec ani env p s).Risk = [] := by
  simp only [mkRec, mkRecAux, mkRows, hx, hy, List.map_nil, hsim, h0]
  cases hla : s.recs.getLast? with
  | none => cases ani <;> simp [reactive_avoidance]
  | some pr => simp

theorem runSim_zero_obstacles (ani : Bool) (env : Env) (p : Params)
    (h0 : p.Xob0 = []) (h0' : p.Yob0 = [])
    (hsim : ∀ V ps dtv, env.obstacle_sim [] [] V ps dtv = ([], [], [], [])) :
    ∀ n, (runSim ani env p n).Xob = [] ∧ (runSim ani env p n).Yob = [] ∧
      ((runSim ani env p n).recs.map (fun rc => rc.psi_oa)) = List.replicate n 0 ∧
      ((runSim ani env p n).recs.map (fun rc => rc.Risk))
        = List.replicate n ([] : List ℝ) := by
  intro n
  induction n with
  | zero => exact ⟨h0, h0', rfl, rfl⟩
  | succ n ih =>
    obtain ⟨hx, hy, hpsi, hrisk⟩ := ih
    have hXob2 : env.obstacle_sim (runSim ani env p n).Xob (runSim ani env p n).Yob
        p.Vob p.psiob p.dt = ([], [], [], []) := by
      rw [hx, hy]; exact hsim _ _ _
    refine ⟨?_, ?_, ?_, ?_⟩
    · show (stepSim ani env p (runSim ani env p n)).Xob = []
      simp only [stepSim, nextCarry]
      rw [hXob2]
    · show (stepSim ani env p (runSim ani env p n)).Yob = []
      simp only [stepSim, nextCarry]
      rw [hXob2]
    · rw [runSim_succ, stepSim_recs, List.map_append, hpsi]
      have hz : (mkRec ani env p (runSim ani env p n)).psi_oa = 0 := by
        rw [mkRec_psi_oa, hx, hy]
        simp [reactive_avoidance]
      rw [List.replicate_succ']
      simp [hz]
    · rw [runSim_succ, stepSim_recs, List.map_append, hrisk]
      have hz : (mkRec ani env p (runSim ani env p n)).Risk = [] :=
        mkRec_Risk_empty ani env p _ hx hy h0 hsim
      rw [List.replicate_succ']
      simp [hz]

theorem get_obstacles_unknown {c : ℤ} (h : c < 1 ∨ 23 < c) : get_obstacles c = [] := by
  have hne : ∀ k : ℤ, 1 ≤ k → k ≤ 23 → ¬(c = k) := by
    intro k hk1 hk2
    omega
  rw [get_obstacles,
    if_neg (hne 1 (by norm_num) (by norm_num)),
    if_neg (hne 2 (by norm_num) (by norm_num)),
    if_neg (hne 3 (by norm_num) (by norm_num)),
    if_neg (hne 4 (by norm_num) (by norm_num)),
    if_neg (hne 5 (by norm_num) (by norm_num)),
    if_neg (hne 6 (by norm_num) (by norm_num)),
    if_neg (hne 7 (by norm_num) (by norm_num)),
    if_neg (hne 8 (by norm_num) (by norm_num)),
    if_neg (hne 9 (by norm_num) (by norm_num)),
    if_neg (hne 10 (by norm_num) (by norm_num)),
    if_neg (hne 11 (by norm_num) (by norm_num)),
    if_neg (hne 12 (by norm_num) (by norm_num)),
    if_neg (hne 13 (by norm_num) (by norm_num)),
    if_neg (hne 14 (by norm_num) (by norm_num)),
    if_neg (hne 15 (by norm_num) (by norm_num)),
    if_neg (hne 16 (by norm_num) (by norm_num)),
    if_neg (hne 17 (by norm_num) (by norm_num)),
    if_neg (hne 18 (by norm_num) (by norm_num)),
    if_neg (hne 19 (by norm_num) (by norm_num)),
    if_neg (hne 20 (by norm_num) (by norm_num)),
    if_neg (hne 21 (by norm_num) (by norm_num)),
    if_neg (hne 22 (by norm_num) (by norm_num)),
    if_neg (hne 23 (by norm_num) (by norm_num))]

/-- C1: when the decision hook is unavailable (`LLM_AVAILABLE` is false, so
`run_colm` is never invoked) or every response it produces is unrecognised
(the extraction falls through to the default `0`), every recorded heading
command still composes waypoint heading and avoidance bias with the
multiplier `+1`: `psi_p[i] = psi_wp[i] + 1 * psi_oa[i]` at every step — a
no-op on the field-computed sign, not a zeroing and not an error. -/
theorem hook_failure_heading_command_unchanged (env : Env) (p : Params) (n : ℕ)
    (hfail : p.llmAvailable = false ∨
      ∀ r d br dc tc, extract_kdir_from_response (env.hook r d br dc tc) = 0) :
    ((runPlain env p n).recs.map (fun rc => rc.psi_p))
      = ((runPlain env p n).recs.map (fun rc => rc.psi_wp + 1 * rc.psi_oa)) := by
  apply List.map_congr_left
  intro rc hrc
  obtain ⟨s, rfl⟩ := runSim_recs_mem false env p n rc hrc
  exact mkRec_psi false env p s

/-- Witness for C1: hook unavailable (`cPz.llmAvailable = false`), one step;
the heading command is the waypoint heading plus the unscaled bias. -/
theorem hook_failure_heading_command_unchanged_app :
    (cPz.llmAvailable = false) ∧
    ((runPlain cEnv cPz 1).recs.map (fun rc => rc.psi_p))
      = ((runPlain cEnv cPz 1).recs.map (fun rc => rc.psi_wp + 1 * rc.psi_oa)) :=
  ⟨rfl, hook_failure_heading_command_unchanged cEnv cPz 1 (Or.inl rfl)⟩

/-- C2: for every case identifier outside the catalogue (`1..23`),
`get_obstacles` yields the empty default, and the setup line
`CPA_ob = [LOA_ob[0] * 1] * len(Xob)` indexes the empty `LOA_ob` list, so the
run fails (`none`) at setup, before any loop step executes — it does not
start the loop with a default or empty obstacle set. -/
theorem unknown_case_fails_at_setup (env : Env) (c : ℤ) (N : ℕ) (dt : ℝ)
    (llmOn llmAvailable animation : Bool) (h : c < 1 ∨ 23 < c) :
    run_simulation_model env c N dt llmOn llmAvailable animation = none := by
  have hobs : get_obstacles c = [] := get_obstacles_unknown h
  simp [run_simulation_model, get_obstacle_data, hobs]

/-- Witness for C2 at case identifier `99`. -/
theorem unknown_case_fails_at_setup_app :
    (((99 : ℤ) < 1 ∨ 23 < (99 : ℤ))) ∧
    run_simulation_model cEnv 99 5 1 false false false = none :=
  ⟨Or.inr (by norm_num),
   unknown_case_fails_at_setup cEnv 99 5 1 false false false (Or.inr (by norm_num))⟩

/-- C4 (code bug, evaluated at the failing input): with the hook constantly
answering "turn port" and the LLM enabled and available, the extracted
directive is `-1` and is recorded as `Kdir[0]` at the decision step
(`Kdir[1]` stays at the initialisation `1`), yet the heading command of the
decision step and of the following step both use multiplier `+1`:
`psi_p - (psi_wp + psi_oa) = 0` at every step.  The assignment
`Kdir[i] = new_kdir` runs after `psi_p[i]` was computed and is not carried
forward, so the directive never multiplies the avoidance bias. -/
theorem kdir_directive_never_applied :
    extract_kdir_from_response ("turn port") = -1 ∧
    ((runPlain cEnvPort cP 2).recs.map (fun rc => rc.Kdir)) = [-1, 1] ∧
    ((runPlain cEnvPort cP 2).recs.map (fun rc => rc.psi_p - (rc.psi_wp + rc.psi_oa)))
      = [0, 0] := by
  have he : extract_kdir_from_response ("turn port") = -1 := by decide
  refine ⟨he, ?_, ?_⟩
  · have h0 : (runPlain cEnvPort cP 2).recs
        = [mkRec false cEnvPort cP (runSim false cEnvPort cP 0),
           mkRec false cEnvPort cP (runSim false cEnvPort cP 1)] := by
      show (runSim false cEnvPort cP 2).recs = _
      rw [runSim_succ, stepSim_recs, runSim_succ, stepSim_recs]
      rfl
    rw [h0]
    have hk0 : (mkRec false cEnvPort cP (runSim false cEnvPort cP 0)).Kdir = -1 := by
      rw [mkRec_Kdir_const_hook false cEnvPort cP _ ("turn port")
        (fun _ _ _ _ _ => rfl)]
      have hlen : (runSim false cEnvPort cP 0).recs.length = 0 :=
        runSim_length false cEnvPort cP 0
      rw [hlen, he]
      simp [cP]
    have hk1 : (mkRec false cEnvPort cP (runSim false cEnvPort cP 1)).Kdir = 1 := by
      rw [mkRec_Kdir_const_hook false cEnvPort cP _ ("turn port")
        (fun _ _ _ _ _ => rfl)]
      have hlen : (runSim false cEnvPort cP 1).recs.length = 1 :=
        runSim_length false cEnvPort cP 1
      rw [hlen]
      simp
    simp [hk0, hk1]
  · have hz : ∀ rc ∈ (runPlain cEnvPort cP 2).recs,
        rc.psi_p - (rc.psi_wp + rc.psi_oa) = (fun _ : StepRec => (0 : ℝ)) rc := by
      intro rc hrc
      obtain ⟨s, rfl⟩ := runSim_recs_mem false cEnvPort cP 2 rc hrc
      rw [mkRec_psi]
      ring
    rw [List.map_congr_left hz, List.map_const']
    rw [show (runPlain cEnvPort cP 2).recs.length = 2 from runSim_length _ _ _ 2]
    rfl

/-- C5 (amended): at step 0 the finite-difference CPA variant is skipped and
the recorded `DCPA[0, :]` and `TCPA[0, :]` rows keep the sentinel
initialisation `1000` for every obstacle (not a zero fill); from step 1
onward the variant is computed by `cpa_calculations` from own positions at
steps `i` and `i-1` and obstacle positions at steps `i` and `i-1`. -/
theorem fd_cpa_skip_and_sentinel (env : Env) (p : Params) (n : ℕ) (hn : 0 < n) :
    ((runPlain env p n).recs[0]?.map (fun rc => rc.DCPA)
        = some (List.replicate p.Xob0.length 1000)) ∧
    ((runPlain env p n).recs[0]?.map (fun rc => rc.TCPA)
        = some (List.replicate p.Xob0.length 1000)) ∧
    (∀ i a pr, 1 ≤ i →
      (runPlain env p n).recs[i]? = some a →
      (runPlain env p n).recs[i - 1]? = some pr →
      (a.DCPA = (List.range a.Xobs.length).map (fun j =>
        (env.cpa_calculations a.x a.y pr.x pr.y (a.Xobs.getD j 0) (a.Yobs.getD j 0)
          (pr.Xobs.getD j 0) (pr.Yobs.getD j 0) p.dt).1) ∧
       a.TCPA = (List.range a.Xobs.length).map (fun j =>
        (env.cpa_calculations a.x a.y pr.x pr.y (a.Xobs.getD j 0) (a.Yobs.getD j 0)
          (pr.Xobs.getD j 0) (pr.Yobs.getD j 0) p.dt).2.1))) := by
  refine ⟨?_, ?_, ?_⟩
  · rw [runPlain, runSim_recs_get_lt false env p hn]
    simp [mkRec_DCPA_nil false env p (runSim false env p 0) rfl]
  · rw [runPlain, runSim_recs_get_lt false env p hn]
    simp [mkRec_TCPA_nil false env p (runSim false env p 0) rfl]
  · intro i a pr hi ha hpr
    rw [runPlain] at ha hpr
    have hin : i < n := by
      by_contra hcon
      rw [List.getElem?_eq_none (by rw [runSim_length]; omega)] at ha
      exact Option.noConfusion ha
    have hin' : i - 1 < n := by omega
    rw [runSim_recs_get_lt false env p hin] at ha
    rw [runSim_recs_get_lt false env p hin'] at hpr
    have ha' := Option.some.inj ha
    have hpr' := Option.some.inj hpr
    subst ha'
    subst hpr'
    have hlast : (runSim false env p i).recs.getLast?
        = some (mkRec false env p (runSim false env p (i - 1))) := by
      have hi1 : i = (i - 1) + 1 := by omega
      rw [hi1]
      exact runSim_recs_getLast false env p (i - 1)
    exact ⟨mkRec_DCPA_last false env p _ _ hlast, mkRec_TCPA_last false env p _ _ hlast⟩

/-- Witness for C5: a two-step run on the one-obstacle parameter set. -/
theorem fd_cpa_skip_and_sentinel_app :
    ((0 : ℕ) < 2) ∧
    ((runPlain cEnv cP 2).recs[0]?.map (fun rc => rc.DCPA)
      = some (List.replicate cP.Xob0.length 1000)) :=
  ⟨by norm_num, (fd_cpa_skip_and_sentinel cEnv cP 2 (by norm_num)).1⟩

/-- C5 counterexample: on a concrete one-obstacle run the recorded step-0
finite-difference rows are the sentinel `[1000]`, not the zero fill claimed;
`1000 ≠ 0`. -/
theorem dcpa_row0_sentinel_1000 :
    ((runPlain cEnv cP 1).recs.map (fun rc => rc.DCPA)) = [[(1000 : ℝ)]] ∧
    ((runPlain cEnv cP 1).recs.map (fun rc => rc.TCPA)) = [[(1000 : ℝ)]] ∧
    ((1000 : ℝ) ≠ 0) := by
  have h0 : (runPlain cEnv cP 1).recs = [mkRec false cEnv cP (initState cP)] := by
    show (runSim false cEnv cP 1).recs = _
    rw [runSim_succ, stepSim_recs]
    rfl
  have hD := mkRec_DCPA_nil false cEnv cP (initState cP) rfl
  have hT := mkRec_TCPA_nil false cEnv cP (initState cP) rfl
  refine ⟨?_, ?_, by norm_num⟩
  · rw [h0]
    simp only [List.map_cons, List.map_nil]
    rw [hD]
    rfl
  · rw [h0]
    simp only [List.map_cons, List.map_nil]
    rw [hT]
    rfl

/-- C7: with zero obstacles (and the straight-line obstacle model preserving
emptiness), every simulation step yields an avoidance bias of exactly `0`
and an empty per-step risk row; the step function is total, so every step
completes. -/
theorem zero_obstacles_zero_bias_empty_risk (env : Env) (p : Params) (n : ℕ)
    (h0 : p.Xob0 = []) (h0' : p.Yob0 = [])
    (hsim : ∀ V ps dtv, env.obstacle_sim [] [] V ps dtv = ([], [], [], [])) :
    ((runPlain env p n).recs.map (fun rc => rc.psi_oa)) = List.replicate n 0 ∧
    ((runPlain env p n).recs.map (fun rc => rc.Risk))
      = List.replicate n ([] : List ℝ) :=
  ⟨(runSim_zero_obstacles false env p h0 h0' hsim n).2.2.1,
   (runSim_zero_obstacles false env p h0 h0' hsim n).2.2.2⟩

/-- Witness for C7: one step with no obstacles. -/
theorem zero_obstacles_zero_bias_empty_risk_app :
    (cPz.Xob0 = ([] : List ℝ)) ∧
    ((runPlain cEnv cPz 1).recs.map (fun rc => rc.psi_oa)) = List.replicate 1 0 ∧
    ((runPlain cEnv cPz 1).recs.map (fun rc => rc.Risk))
      = List.replicate 1 ([] : List ℝ) :=
  ⟨rfl,
   (zero_obstacles_zero_bias_empty_risk cEnv cPz 1 rfl rfl (fun _ _ _ => rfl)).1,
   (zero_obstacles_zero_bias_empty_risk cEnv cPz 1 rfl rfl (fun _ _ _ => rfl)).2⟩

/-! ### Lockstep relation between the animated and non-animated branches -/

theorem RecEqEx.refl' (a : StepRec) : RecEqEx a a := by
  constructor <;> rfl

theorem RecEqEx.of_eq {a c : StepRec} (h : a = c) : RecEqEx a c :=
  h ▸ RecEqEx.refl' a

theorem RecsRel.b_map_eq {la lb : List StepRec} (h : RecsRel la lb) :
    la.map (fun rc => rc.b) = lb.map (fun rc => rc.b) := by
  apply List.ext_getElem?
  intro i
  rw [List.getElem?_map, List.getElem?_map]
  cases ha : la[i]? with
  | none =>
    have hlb : lb[i]? = none := by
      rw [List.getElem?_eq_none]
      rw [← h.1]
      exact List.getElem?_eq_none_iff.1 ha
    rw [hlb]
  | some a =>
    cases hc : lb[i]? with
    | none =>
      have hla : la[i]? = none := by
        rw [List.getElem?_eq_none]
        rw [h.1]
        exact List.getElem?_eq_none_iff.1 hc
      rw [hla] at ha
      exact Option.noConfusion ha
    | some c =>
      have hec := (h.2 i a c ha hc).1
      simp [hec.hb]

theorem RecsRel.getLast?_rel {la lb : List StepRec} (h : RecsRel la lb) :
    (la.getLast? = none ∧ lb.getLast? = none) ∨
    (∃ a c, la.getLast? = some a ∧ lb.getLast? = some c ∧ RecEqEx a c) := by
  cases ha : la.getLast? with
  | none =>
    left
    have hla : la = [] := List.getLast?_eq_none_iff.1 ha
    have hlb : lb = [] := by
      have hl := h.1
      rw [hla] at hl
      exact List.length_eq_zero.1 hl.symm
    exact ⟨rfl, by rw [hlb]; rfl⟩
  | some a =>
    right
    have hne : la ≠ [] := by
      intro hcon
      rw [hcon] at ha
      exact Option.noConfusion ha
    have hpos : 0 < la.length := List.length_pos.2 hne
    have hget : la[la.length - 1]? = some a := by
      rw [← List.getLast?_eq_getElem? la]
      exact ha
    cases hc : lb[la.length - 1]? with
    | none =>
      exfalso
      have hlc := List.getElem?_eq_none_iff.1 hc
      rw [← h.1] at hlc
      omega
    | some c =>
      refine ⟨a, c, rfl, ?_, (h.2 _ a c hget hc).1⟩
      have hgl : lb.getLast? = lb[lb.length - 1]? := List.getLast?_eq_getElem? lb
      rw [hgl, ← h.1]
      exact hc

theorem mkRows_some_eq (ani1 ani2 : Bool) (env : Env) (p : Params)
    {X Xdot : Vec6} {ob : List ℝ × List ℝ × List ℝ × List ℝ} {ra : RAResult}
    {a c : StepRec} (hac : RecEqEx a c) :
    mkRows ani1 env p X Xdot ob ra (some a)
      = mkRows ani2 env p X Xdot ob ra (some c) := by
  simp only [mkRows]
  rw [hac.hx, hac.hy, hac.hXobs, hac.hYobs]

theorem mkRecAux_some_eq (ani1 ani2 : Bool) (env : Env) (p : Params) (X : Vec6)
    (Xob Yob : List ℝ) (iw : ℕ) (ui t : ℝ) (i : ℕ) (barr : ℕ → ℝ)
    {a c : StepRec} (hac : RecEqEx a c) :
    mkRecAux ani1 env p X Xob Yob iw ui t i barr (some a)
      = mkRecAux ani2 env p X Xob Yob iw ui t i barr (some c) := by
  simp only [mkRecAux]
  rw [mkRows_some_eq ani1 ani2 env p hac]

theorem mkRecAux_none_eqEx (env : Env) (p : Params) (X : Vec6)
    (Xob Yob : List ℝ) (iw : ℕ) (ui t : ℝ) (i : ℕ) (barr : ℕ → ℝ) :
    RecEqEx (mkRecAux true env p X Xob Yob iw ui t i barr none)
            (mkRecAux false env p X Xob Yob iw ui t i barr none) := by
  constructor <;> rfl

theorem stepSim_rel (env : Env) (p : Params) {sa sb : LoopState}
    (h : StateRel sa sb) : StateRel (stepSim true env p sa) (stepSim false env p sb) := by
  obtain ⟨hX, hXob, hYob, hui, hiw, ht, hrecs⟩ := h
  have hlen : sa.recs.length = sb.recs.length := hrecs.1
  have hb : bArr sa.recs sa.X.b = bArr sb.recs sb.X.b := by
    unfold bArr
    rw [RecsRel.b_map_eq hrecs, hX]
  have hcarry : nextCarry env p sa = nextCarry env p sb := by
    simp only [nextCarry]
    rw [hb, hX, hXob, hYob, hui, hiw, ht]
  have hmk1 : RecEqEx (mkRec true env p sa) (mkRec false env p sb) := by
    simp only [mkRec]
    rw [hb, hX, hXob, hYob, hui, hiw, ht, hlen]
    rcases RecsRel.getLast?_rel hrecs with ⟨hna, hnb⟩ | ⟨a, c, hsa, hsb, hac⟩
    · rw [hna, hnb]
      exact mkRecAux_none_eqEx env p _ _ _ _ _ _ _ _
    · rw [hsa, hsb]
      exact RecEqEx.of_eq (mkRecAux_some_eq true false env p _ _ _ _ _ _ _ _ hac)
  have hmk2 : 1 ≤ sa.recs.length →
      (mkRec true env p sa).Risk = (mkRec false env p sb).Risk := by
    intro hge
    have hne : sa.recs ≠ [] := by
      intro hcon
      rw [hcon] at hge
      simp at hge
    rcases RecsRel.getLast?_rel hrecs with ⟨hna, _⟩ | ⟨a, c, hsa, hsb, hac⟩
    · exact absurd (List.getLast?_eq_none_iff.1 hna) hne
    · simp only [mkRec]
      rw [hb, hX, hXob, hYob, hui, hiw, ht, hlen, hsa, hsb]
      rw [mkRecAux_some_eq true false env p _ _ _ _ _ _ _ _ hac]
  refine ⟨?_, ?_, ?_, ?_, ?_, ?_, ?_, ?_⟩
  · show (nextCarry env p sa).1 = (nextCarry env p sb).1
    rw [hcarry]
  · show (nextCarry env p sa).2.1 = (nextCarry env p sb).2.1
    rw [hcarry]
  · show (nextCarry env p sa).2.2.1 = (nextCarry env p sb).2.2.1
    rw [hcarry]
  · show (nextCarry env p sa).2.2.2.1 = (nextCarry env p sb).2.2.2.1
    rw [hcarry]
  · show (nextCarry env p sa).2.2.2.2 = (nextCarry env p sb).2.2.2.2
    rw [hcarry]
  · show sa.t + p.dt = sb.t + p.dt
    rw [ht]
  · show ((stepSim true env p sa).recs.length = (stepSim false env p sb).recs.length)
    rw [stepSim_recs, stepSim_recs, List.length_append, List.length_append, hlen]
    rfl
  · intro i a c ha hc
    rw [stepSim_recs] at ha
    rw [stepSim_recs] at hc
    rcases Nat.lt_trichotomy i sa.recs.length with hi | hi | hi
    · rw [List.getElem?_append_left hi] at ha
      rw [List.getElem?_append_left (by rw [← hlen]; exact hi)] at hc
      exact hrecs.2 i a c ha hc
    · have ha' : a = mkRec true env p sa := by
        rw [hi, List.getElem?_concat_length] at ha
        exact (Option.some.inj ha).symm
      have hc' : c = mkRec false env p sb := by
        rw [hi, hlen, List.getElem?_concat_length] at hc
        exact (Option.some.inj hc).symm
      subst ha'
      subst hc'
      exact ⟨hmk1, fun hge => hmk2 (by omega)⟩
    · exfalso
      rw [List.getElem?_eq_none (by rw [List.length_append]; simp; omega)] at ha
      exact Option.noConfusion ha

theorem runSim_rel (env : Env) (p : Params) :
    ∀ n, StateRel (runSim true env p n) (runSim false env p n) := by
  intro n
  induction n with
  | zero =>
    refine ⟨rfl, rfl, rfl, rfl, rfl, rfl, rfl, ?_⟩
    intro i a c ha hc
    simp [runSim, initState] at ha
  | succ n ih => exact stepSim_rel env p ih

/-- C6 (amended): for identical arguments and initial conditions the two
execution paths run in lockstep: the carried vessel state agrees after every
number of steps, the branches record the same number of rows, every recorded
row agrees on all claim-listed quantities except possibly `Risk`
(trajectory, obstacle positions, both DCPA/TCPA variants, distance, bearing,
commands — the `RecEqEx` fields), and the `Risk` rows agree from step 1
onward.  The `Risk` row of step 0 genuinely differs — the animated branch
applies the risk function to the step-0 sentinel geometry while the
non-animated branch leaves the zero initialisation (see the
counterexample) — so the original claim fails only there. -/
theorem branches_agree_except_risk_row0 (env : Env) (p : Params) (n : ℕ) :
    ((runAni env p n).X = (runPlain env p n).X) ∧
    ((runAni env p n).recs.length = (runPlain env p n).recs.length) ∧
    (∀ i a c, (runAni env p n).recs[i]? = some a →
      (runPlain env p n).recs[i]? = some c →
      RecEqEx a c ∧ (1 ≤ i → a.Risk = c.Risk)) := by
  have h := runSim_rel env p n
  exact ⟨h.1, h.2.2.2.2.2.2.1, h.2.2.2.2.2.2.2⟩

/-- Witness for C6: the two step-0 records of a one-step run on the concrete
one-obstacle scenario agree on every non-`Risk` field. -/
theorem branches_agree_except_risk_row0_app :
    RecEqEx (mkRec true cEnv cP (initState cP)) (mkRec false cEnv cP (initState cP)) :=
  ((branches_agree_except_risk_row0 cEnv cP 1).2.2 0
    (mkRec true cEnv cP (initState cP)) (mkRec false cEnv cP (initState cP))
    rfl rfl).1

theorem mkRec_Risk_none_ani (env : Env) (p : Params) (s : LoopState)
    (h : s.recs = []) :
    (mkRec true env p s).Risk
      = (reactive_avoidance (s.Xob.map (fun w => w * (1 / 1852)))
          (s.Yob.map (fun w => w * (1 / 1852)))
          (s.X.x * (1 / 1852)) (s.X.y * (1 / 1852)) s.X.psi s.t).distance_ob.map
          (fun dj => env.risk_calculations 1000 1000 dj 0) := by
  simp only [mkRec, mkRecAux, mkRows, h, List.getLast?_nil, if_true]

theorem mkRec_Risk_none_plain (env : Env) (p : Params) (s : LoopState)
    (h : s.recs = []) :
    (mkRec false env p s).Risk = List.replicate p.Xob0.length 0 := by
  simp only [mkRec, mkRecAux, mkRows, h, List.getLast?_nil]
  simp

/-- C6 counterexample: on the concrete one-obstacle scenario with the risk
function constantly `1`, the animated branch records `Risk[0] = [1]` while
the non-animated branch records `Risk[0] = [0]`, so the two paths do not
compute identical per-step results at step 0. -/
theorem risk_row0_branch_mismatch :
    ((runAni cEnv cP 1).recs.map (fun rc => rc.Risk)) = [[(1 : ℝ)]] ∧
    ((runPlain cEnv cP 1).recs.map (fun rc => rc.Risk)) = [[(0 : ℝ)]] ∧
    ([[(1 : ℝ)]] ≠ ([[(0 : ℝ)]] : List (List ℝ))) := by
  have hA : (runAni cEnv cP 1).recs = [mkRec true cEnv cP (initState cP)] := by
    show (runSim true cEnv cP 1).recs = _
    rw [runSim_succ, stepSim_recs]
    rfl
  have hP : (runPlain cEnv cP 1).recs = [mkRec false cEnv cP (initState cP)] := by
    show (runSim false cEnv cP 1).recs = _
    rw [runSim_succ, stepSim_recs]
    rfl
  refine ⟨?_, ?_, by simp⟩
  · rw [hA]
    simp only [List.map_cons, List.map_nil]
    rw [mkRec_Risk_none_ani cEnv cP (initState cP) rfl]
    simp [initState, cP, cEnv, reactive_avoidance]
  · rw [hP]
    simp only [List.map_cons, List.map_nil]
    rw [mkRec_Risk_none_plain cEnv cP (initState cP) rfl]
    rfl

end Corall
